import Mathlib

/-!
Shallow embedding of the audit-log service of the repository
(interview-simulation.ts, src/models/AuditLog.ts, src/services/users.service.ts
and the unnamed controller/service parts).

Modelling conventions:
* Mongoose `Types.ObjectId` values are modelled as `Nat`.
* JavaScript `undefined`-able values are modelled as `Option`.
* The `changes : any` payload is modelled by the primitive JS values the
  service moves around (`null`, booleans, numbers, strings); JS strict
  comparison `!==` on these primitives is value equality, which matches the
  shallow comparison the code performs.
* The Mongoose model (`AuditLogModel.create`, `find`, `sort`) is modelled as a
  state-passing function over a `Db` carrying the list of persisted records in
  insertion order, a fresh-id counter, the current clock (for the
  `timestamp: {default: Date.now}` schema default), a `failing` flag modelling
  the document store rejecting an operation, and a counter of how many times
  `create` was invoked.
* A TypeScript `async` function that can throw is modelled as returning
  `Except String α`: `Except.error` is a thrown exception reaching the caller,
  `Except.ok none` is a normal return of `undefined`.
* Mongoose `populate` is a read-side projection that expands references for
  display; it does not change which records are returned or their order, so it
  is not modelled.
-/

namespace Ume1

/-- JS action strings `"CREATE" | "UPDATE" | "DELETE"`. -/
inductive Action where
  | create
  | update
  | delete
deriving Repr, DecidableEq

/-- JS HTTP-method strings `"GET" | "POST" | "PUT" | "PATCH" | "DELETE"`. -/
inductive Method where
  | get
  | post
  | put
  | patch
  | delete
deriving Repr, DecidableEq

/-- Primitive JavaScript values used as `changes` payloads and object fields. -/
inductive Value where
  | vNull
  | vBool (b : Bool)
  | vNum (n : Int)
  | vStr (s : String)
deriving Repr, DecidableEq

/-- JS truthiness of a possibly-`undefined` primitive value (`!x` negated). -/
def truthyV : Option Value → Bool
  | none => false
  | some Value.vNull => false
  | some (Value.vBool b) => b
  | some (Value.vNum n) => !(n == 0)
  | some (Value.vStr s) => !(s == "")

/-- JS truthiness of a possibly-`undefined` string (empty string is falsy). -/
def truthyS : Option String → Bool
  | none => false
  | some s => !(s == "")

/-- A persisted audit-log document, as laid out by the Mongoose schemas
(`AuditLogSchema` in interview-simulation.ts and src/models/AuditLog.ts).
The `action`/`type` discriminator is called `action` here (the two schemas
name it differently but it is the same field). -/
structure AuditRec where
  _id : Nat
  userId : Nat
  documentId : Nat
  collectionName : String
  changes : Value
  action : Action
  timestamp : Nat
  method : Option Method
  parent : Option Nat
deriving Repr, DecidableEq

/-- The caller-supplied document for `create`: `Partial<IAuditLog>` — every
field may be `undefined`. -/
structure AuditParams where
  userId : Option Nat := none
  documentId : Option Nat := none
  collectionName : Option String := none
  changes : Option Value := none
  action : Option Action := none
  timestamp : Option Nat := none
  method : Option Method := none
  parent : Option Nat := none
deriving Repr, DecidableEq

/-- The document store's state: persisted records in insertion order, the
next generated `_id`, the current clock, whether the store is failing
(connectivity / rejected writes), and how many times `create` was invoked. -/
structure Db where
  logs : List AuditRec := []
  nextId : Nat := 0
  now : Nat := 0
  failing : Bool := false
  createCalls : Nat := 0
deriving Repr, DecidableEq

/-- Errors a Mongoose model operation can raise. -/
inductive DbErr where
  | validationError
  | storageFailure
deriving Repr, DecidableEq

/-- `AuditLogModel.create(params)` / `AuditLog.create({...})`.

Mongoose first validates the schema-required fields (`userId`, `documentId`,
`collectionName`, `changes`, `action` in both schemas; `method` additionally
required by the interview-simulation schema, the `methodRequired` flag), then
performs the write, which fails when the store is failing.  `required: true`
on a String rejects the empty string; on a Mixed path it rejects
`null`/`undefined`.  `timestamp` defaults to `Date.now` when absent; `_id` is
generated.  Every invocation is counted in `createCalls`. -/
def modelCreate (methodRequired : Bool) (db : Db) (p : AuditParams) :
    Except DbErr AuditRec × Db :=
  let db1 := { db with createCalls := db.createCalls + 1 }
  match p.userId, p.documentId, p.collectionName, p.changes, p.action with
  | some u, some d, some c, some ch, some a =>
    if c = "" ∨ ch = Value.vNull ∨ (methodRequired ∧ p.method = none) then
      (Except.error DbErr.validationError, db1)
    else if db1.failing then
      (Except.error DbErr.storageFailure, db1)
    else
      let r : AuditRec :=
        { _id := db1.nextId, userId := u, documentId := d, collectionName := c,
          changes := ch, action := a, timestamp := p.timestamp.getD db1.now,
          method := p.method, parent := p.parent }
      (Except.ok r, { db1 with logs := db1.logs ++ [r], nextId := db1.nextId + 1 })
  | _, _, _, _, _ => (Except.error DbErr.validationError, db1)

/-- Insert a record into a list sorted ascending by `timestamp`. -/
def insertByTs (r : AuditRec) : List AuditRec → List AuditRec
  | [] => [r]
  | x :: xs => if r.timestamp ≤ x.timestamp then r :: x :: xs else x :: insertByTs r xs

/-- `.sort({ timestamp: 1 })`: ascending sort by the `timestamp` field. -/
def sortByTimestamp : List AuditRec → List AuditRec
  | [] => []
  | x :: xs => insertByTs x (sortByTimestamp xs)

/-- `AuditLogModel.find({ documentId })`: every persisted record whose
`documentId` equals the query value. -/
def findByDocumentId (db : Db) (documentId : Nat) : List AuditRec :=
  db.logs.filter (fun r => r.documentId == documentId)

/-- `AuditLogModel.find({ parent })`: every persisted record whose `parent`
equals the query id. -/
def findByParent (db : Db) (parentId : Nat) : List AuditRec :=
  db.logs.filter (fun r => r.parent == some parentId)

/-! ### interview-simulation.ts `AuditLogService` -/

/-- `AuditLogService.createAuditLog(params)` (interview-simulation.ts).

Destructures the six fields and throws when any is falsy, then calls
`AuditLogModel.create(params)`; the whole body sits in a `try` whose `catch`
only logs, so both the validation throw and a create failure are swallowed and
the function returns `undefined` (`Except.ok none`).  It never throws to the
caller. -/
def createAuditLog (db : Db) (params : AuditParams) :
    Except String (Option AuditRec) × Db :=
  if !(truthyV params.changes && params.action.isSome && truthyS params.collectionName
      && params.documentId.isSome && params.method.isSome && params.userId.isSome) then
    -- `throw new Error("some params are missing in the audit log params")`,
    -- caught by the function's own catch: `console.log(...)`, return undefined
    (Except.ok none, db)
  else
    match modelCreate true db params with
    | (Except.ok r, db1) => (Except.ok (some r), db1)
    | (Except.error _, db1) =>
      -- `console.log("error creating an audit log:", e)`, return undefined
      (Except.ok none, db1)

/-- `AuditLogService.getDocumentAuditLog(documentId)` (interview-simulation.ts):
`find({ documentId }).populate(...).sort({ timestamp: 1 })`; a store failure is
re-thrown as `new Error("unable to create an audit log: ")`. -/
def getDocumentAuditLog (db : Db) (documentId : Nat) :
    Except String (List AuditRec) :=
  if db.failing then Except.error "unable to create an audit log: "
  else Except.ok (sortByTimestamp (findByDocumentId db documentId))

/-- `AuditLogService.getParentChildAuditLogs(parent)` (interview-simulation.ts):
`find({ parent }).populate("userId", "name email")` — no sort; a store failure
is re-thrown. -/
def getParentChildAuditLogs (db : Db) (parent : Nat) :
    Except String (List AuditRec) :=
  if db.failing then Except.error "store failure"
  else Except.ok (findByParent db parent)

/-- `AuditLogService.createLinkedAuditLog(params)` (interview-simulation.ts).

Throws when `params.parent` is falsy; the `catch` re-throws (`throw new
Error(e)`), so that error does reach the caller.  Otherwise it delegates to
`createAuditLog`, which never throws. -/
def createLinkedAuditLog (db : Db) (params : AuditParams) :
    Except String (Option AuditRec) × Db :=
  if params.parent.isNone then
    (Except.error "there is no parent to this audit log", db)
  else
    createAuditLog db params

/-! ### src/services (users.service.ts second half, and the unnamed
controller parts) `AuditLogService` -/

/-- `AuditLogService.logAuditEntry(type, collectionName, documentId, changes,
userId, method?, parent?)` (src/services/users.service.ts).

No service-level validation: it calls `AuditLog.create({...})` directly (the
schema of src/models/AuditLog.ts does the required-field checks, with `method`
optional).  The `catch` only logs, so any failure yields `undefined`. -/
def logAuditEntry (db : Db) (type : Action) (collectionName : String)
    (documentId : Nat) (changes : Value) (userId : Nat)
    (method : Option Method := none) (parent : Option Nat := none) :
    Except String (Option AuditRec) × Db :=
  match modelCreate false db
      { userId := some userId, documentId := some documentId,
        collectionName := some collectionName, changes := some changes,
        action := some type, method := method, parent := parent } with
  | (Except.ok r, db1) => (Except.ok (some r), db1)
  | (Except.error _, db1) =>
    -- `console.log("failed to create log entry: ", e)`, return undefined
    (Except.ok none, db1)

/-- `AuditLogService.getAuditTrail(documentId)` (src/services):
`find({ documentId }).populate(...).sort({ timestamp: 1 })`, and the `catch`
returns `[]` — a store failure is indistinguishable from an empty trail. -/
def getAuditTrail (db : Db) (documentId : Nat) :
    Except String (List AuditRec) :=
  match (if db.failing then Except.error "store failure"
         else Except.ok (sortByTimestamp (findByDocumentId db documentId)) :
         Except String (List AuditRec)) with
  | Except.ok l => Except.ok l
  | Except.error _ =>
    -- `console.log("failed to get audit trail: ", e)`, `return []`
    Except.ok []

/-- `AuditLogService.getChildAuditLogs(parentId)` (src/services):
`find({ parent: parentId }).populate(...).sort({ timestamp: 1 })`, and the
`catch` returns `[]`. -/
def getChildAuditLogs (db : Db) (parentId : Nat) :
    Except String (List AuditRec) :=
  match (if db.failing then Except.error "store failure"
         else Except.ok (sortByTimestamp (findByParent db parentId)) :
         Except String (List AuditRec)) with
  | Except.ok l => Except.ok l
  | Except.error _ =>
    -- `console.log("failed to get child audit logs: ", e)`, `return []`
    Except.ok []

/-- `AuditLogService.logLinkedAuditEntry(type, collectionName, documentId,
changes, userId, parentAuditLogId, method?)` (src/services): delegates to
`logAuditEntry` with `parent := parentAuditLogId`.  `parentAuditLogId` is a
required (non-optional) argument; no runtime check exists. -/
def logLinkedAuditEntry (db : Db) (type : Action) (collectionName : String)
    (documentId : Nat) (changes : Value) (userId : Nat)
    (parentAuditLogId : Nat) (method : Option Method := none) :
    Except String (Option AuditRec) × Db :=
  logAuditEntry db type collectionName documentId changes userId method
    (some parentAuditLogId)

/-! ### `UserServiceWithAudit.updateUser` change diff (interview-simulation.ts
lines 337–345) -/

/-- A JavaScript object as the diff code sees it: field-name/value pairs.
`jsGet o k` is `o[k]`: `none` is JavaScript `undefined` (the absent marker). -/
def jsGet (o : List (String × Value)) (k : String) : Option Value :=
  (o.find? (fun p => p.1 == k)).map (fun p => p.2)

/-- One entry of the `changes` object: `{ from: oldUser[key], to:
updateData[key] }`; `none` stands for the absent marker (`undefined`). -/
structure Change where
  fromV : Option Value
  toV : Option Value
deriving Repr, DecidableEq

/-- The change-diff computation of `UserServiceWithAudit.updateUser`:

```js
const changes = {};
Object.keys(updateData).forEach((key) => {
  if (oldUser[key] !== updateData[key]) {
    changes[key] = { from: oldUser[key], to: updateData[key] };
  }
});
```

On the primitive values modelled here, `!==` is value inequality. -/
def calcChanges (oldUser updateData : List (String × Value)) :
    List (String × Change) :=
  (updateData.map Prod.fst).filterMap (fun key =>
    if jsGet oldUser key ≠ jsGet updateData key then
      some (key, { fromV := jsGet oldUser key, toV := jsGet updateData key })
    else none)

/-! ### Concrete sample data used in closed theorems and witnesses -/

/-- A call input whose mandatory `collectionName` is the empty string but
whose other fields are all present and valid. -/
def pEmptyName : AuditParams :=
  { userId := some 1, documentId := some 2, collectionName := some "",
    changes := some (Value.vStr "x"), action := some Action.create,
    method := some Method.post }

/-- A fully valid call input (all six fields of the interview variant). -/
def pValid : AuditParams :=
  { userId := some 1, documentId := some 2, collectionName := some "User",
    changes := some (Value.vStr "x"), action := some Action.update,
    method := some Method.put }

/-- `pValid` with a parent reference set. -/
def pValidLinked : AuditParams := { pValid with parent := some 7 }

/-- A valid call input with no `method`. -/
def pNoMethod : AuditParams :=
  { userId := some 1, documentId := some 2, collectionName := some "User",
    changes := some (Value.vStr "x"), action := some Action.create }

/-- A store whose document-store operations fail. -/
def dbFailing : Db := { failing := true }

/-- Sample persisted record: subject 2, timestamp 5. -/
def recLate : AuditRec :=
  { _id := 0, userId := 1, documentId := 2, collectionName := "User",
    changes := Value.vStr "b", action := Action.update, timestamp := 5,
    method := none, parent := none }

/-- Sample persisted record: subject 2, timestamp 3, inserted after
`recLate` though chronologically earlier. -/
def recEarly : AuditRec :=
  { _id := 1, userId := 1, documentId := 2, collectionName := "User",
    changes := Value.vStr "a", action := Action.create, timestamp := 3,
    method := none, parent := none }

/-- Sample persisted record for a different subject (9), child of record 1. -/
def recOther : AuditRec :=
  { _id := 2, userId := 1, documentId := 9, collectionName := "User",
    changes := Value.vStr "c", action := Action.create, timestamp := 1,
    method := none, parent := some 1 }

/-- A store holding the three sample records in insertion order. -/
def dbSample : Db := { logs := [recLate, recEarly, recOther], nextId := 3 }

/-! ### The audit service's operation surface, for the append-only invariant -/

/-- One call to any operation of the two `AuditLogService` variants. -/
inductive ServiceOp where
  | createAuditLogOp (p : AuditParams)
  | createLinkedAuditLogOp (p : AuditParams)
  | getDocumentAuditLogOp (documentId : Nat)
  | getParentChildAuditLogsOp (parent : Nat)
  | logAuditEntryOp (type : Action) (collectionName : String) (documentId : Nat)
      (changes : Value) (userId : Nat) (method : Option Method) (parent : Option Nat)
  | getAuditTrailOp (documentId : Nat)
  | getChildAuditLogsOp (parentId : Nat)
  | logLinkedAuditEntryOp (type : Action) (collectionName : String)
      (documentId : Nat) (changes : Value) (userId : Nat)
      (parentAuditLogId : Nat) (method : Option Method)
deriving Repr

/-- Run one service operation against the store; read queries leave it as is. -/
def runOp (db : Db) : ServiceOp → Db
  | ServiceOp.createAuditLogOp p => (createAuditLog db p).2
  | ServiceOp.createLinkedAuditLogOp p => (createLinkedAuditLog db p).2
  | ServiceOp.getDocumentAuditLogOp _ => db
  | ServiceOp.getParentChildAuditLogsOp _ => db
  | ServiceOp.logAuditEntryOp t c d ch u m pa => (logAuditEntry db t c d ch u m pa).2
  | ServiceOp.getAuditTrailOp _ => db
  | ServiceOp.getChildAuditLogsOp _ => db
  | ServiceOp.logLinkedAuditEntryOp t c d ch u pa m =>
      (logLinkedAuditEntry db t c d ch u pa m).2

/-! ### Helper lemmas about the sort and the store -/

theorem mem_insertByTs {a r : AuditRec} {l : List AuditRec} :
    a ∈ insertByTs r l ↔ a = r ∨ a ∈ l := by
  induction l with
  | nil => simp [insertByTs]
  | cons x xs ih =>
    simp only [insertByTs]
    split
    · simp [List.mem_cons]
    · simp only [List.mem_cons, ih]
      tauto

theorem perm_insertByTs (r : AuditRec) (l : List AuditRec) :
    (insertByTs r l).Perm (r :: l) := by
  induction l with
  | nil => simp [insertByTs]
  | cons x xs ih =>
    simp only [insertByTs]
    split
    · exact List.Perm.refl _
    · exact (ih.cons x).trans (List.Perm.swap r x xs)

theorem sorted_insertByTs {r : AuditRec} {l : List AuditRec}
    (h : l.Pairwise (fun a b => a.timestamp ≤ b.timestamp)) :
    (insertByTs r l).Pairwise (fun a b => a.timestamp ≤ b.timestamp) := by
  induction l with
  | nil => simp [insertByTs]
  | cons x xs ih =>
    rw [List.pairwise_cons] at h
    simp only [insertByTs]
    split
    · rename_i hle
      refine List.Pairwise.cons ?_ (List.Pairwise.cons h.1 h.2)
      intro b hb
      rcases List.mem_cons.mp hb with rfl | hb
      · exact hle
      · exact le_trans hle (h.1 b hb)
    · rename_i hgt
      refine List.Pairwise.cons ?_ (ih h.2)
      intro b hb
      rcases mem_insertByTs.mp hb with rfl | hb
      · omega
      · exact h.1 b hb

theorem perm_sortByTimestamp (l : List AuditRec) : (sortByTimestamp l).Perm l := by
  induction l with
  | nil => exact List.Perm.refl _
  | cons x xs ih => exact (perm_insertByTs x (sortByTimestamp xs)).trans (ih.cons x)

theorem mem_sortByTimestamp {a : AuditRec} {l : List AuditRec} :
    a ∈ sortByTimestamp l ↔ a ∈ l :=
  (perm_sortByTimestamp l).mem_iff

theorem sorted_sortByTimestamp (l : List AuditRec) :
    (sortByTimestamp l).Pairwise (fun a b => a.timestamp ≤ b.timestamp) := by
  induction l with
  | nil => simp [sortByTimestamp]
  | cons x xs ih => exact sorted_insertByTs ih

theorem modelCreate_logs (mr : Bool) (db : Db) (p : AuditParams) :
    ((modelCreate mr db p).2).logs = db.logs
      ∨ ∃ r, ((modelCreate mr db p).2).logs = db.logs ++ [r] := by
  unfold modelCreate
  rcases p.userId with _ | u <;> rcases p.documentId with _ | d <;>
    rcases p.collectionName with _ | c <;> rcases p.changes with _ | ch <;>
    rcases p.action with _ | a <;> simp only []
  all_goals try (left; trivial)
  split
  · left; rfl
  · split
    · left; rfl
    · right; exact ⟨_, rfl⟩

/-! ### Claim theorems -/

/-- C1: the claim fails on the code.  At an input whose mandatory
`collectionName` is empty (all other fields present and valid), the
interview-simulation `createAuditLog` catches its own validation throw and
returns `undefined` — `Except.ok none`, not a `ValidationFailure` error — and
the src/services `logAuditEntry` performs no service-level validation at all,
so it invokes the store's `create` (call count 1, not 0); the record is still
not persisted (schema validation), and the caller again receives `undefined`
rather than an error. -/
theorem C1_validation_error_swallowed :
    (createAuditLog {} pEmptyName).1 = Except.ok none
    ∧ ((createAuditLog {} pEmptyName).2).logs = []
    ∧ (logAuditEntry {} Action.create "" 2 (Value.vStr "x") 1).1 = Except.ok none
    ∧ ((logAuditEntry {} Action.create "" 2 (Value.vStr "x") 1).2).createCalls = 1
    ∧ ((logAuditEntry {} Action.create "" 2 (Value.vStr "x") 1).2).logs = [] := by
  refine ⟨rfl, rfl, rfl, rfl, rfl⟩

/-- C2: the claim fails on the code.  With the store failing and fully valid
inputs, `createAuditLog`, `logAuditEntry`, `createLinkedAuditLog` (with a
parent set) and `logLinkedAuditEntry` all catch the store error, log it, and
return `undefined` (`Except.ok none`) instead of propagating a
`StorageFailure` — the audit-write failure is invisible to the caller. -/
theorem C2_storage_failure_swallowed :
    (createAuditLog dbFailing pValid).1 = Except.ok none
    ∧ (createLinkedAuditLog dbFailing pValidLinked).1 = Except.ok none
    ∧ (logAuditEntry dbFailing Action.update "User" 2 (Value.vStr "x") 1).1
      = Except.ok none
    ∧ (logLinkedAuditEntry dbFailing Action.update "User" 2 (Value.vStr "x") 1 7).1
      = Except.ok none := by
  refine ⟨rfl, rfl, rfl, rfl⟩

/-- C3: round-trip.  For any valid input (all mandatory fields present and
truthy) and a non-failing store, `createAuditLog` returns a persisted record
whose mandatory fields equal the inputs, and `getDocumentAuditLog` on the
resulting store includes that exact record. -/
theorem C3_round_trip (db : Db) (u d : Nat) (c : String) (ch : Value)
    (a : Action) (m : Method) (ts pr : Option Nat)
    (hc0 : c ≠ "") (hcht : truthyV (some ch) = true)
    (hfail : db.failing = false) :
    ∃ r db1,
      createAuditLog db
          (AuditParams.mk (some u) (some d) (some c) (some ch) (some a) ts (some m) pr)
        = (Except.ok (some r), db1)
      ∧ r.userId = u ∧ r.documentId = d ∧ r.collectionName = c
      ∧ r.changes = ch ∧ r.action = a
      ∧ ∃ l, getDocumentAuditLog db1 d = Except.ok l ∧ r ∈ l := by
  have hc' : (c == "") = false := beq_eq_false_iff_ne.mpr hc0
  have hch' : ch ≠ Value.vNull := by
    rintro rfl; simp [truthyV] at hcht
  refine ⟨⟨db.nextId, u, d, c, ch, a, ts.getD db.now, some m, pr⟩,
    { db with createCalls := db.createCalls + 1,
              logs := db.logs ++ [⟨db.nextId, u, d, c, ch, a, ts.getD db.now, some m, pr⟩],
              nextId := db.nextId + 1 },
    ?_, rfl, rfl, rfl, rfl, rfl, ?_⟩
  · have hmc : modelCreate true db
        (AuditParams.mk (some u) (some d) (some c) (some ch) (some a) ts (some m) pr)
        = (Except.ok ⟨db.nextId, u, d, c, ch, a, ts.getD db.now, some m, pr⟩,
           { db with createCalls := db.createCalls + 1,
                     logs := db.logs ++ [⟨db.nextId, u, d, c, ch, a, ts.getD db.now, some m, pr⟩],
                     nextId := db.nextId + 1 }) := by
      unfold modelCreate
      dsimp only
      rw [if_neg ?hv, if_neg ?hf]
      case hv =>
        rintro (h | h | ⟨-, h⟩)
        · exact hc0 h
        · exact hch' h
        · exact Option.some_ne_none m h
      case hf =>
        simp [hfail]
    unfold createAuditLog
    rw [if_neg (by simp [truthyS, hc', hcht]), hmc]
  · refine ⟨sortByTimestamp (findByDocumentId
        { db with createCalls := db.createCalls + 1,
                  logs := db.logs ++ [⟨db.nextId, u, d, c, ch, a, ts.getD db.now, some m, pr⟩],
                  nextId := db.nextId + 1 } d), ?_, ?_⟩
    · unfold getDocumentAuditLog
      rw [if_neg (by simp [hfail])]
    · rw [mem_sortByTimestamp]
      simp [findByDocumentId]

/-- Witness for C3 at a concrete valid input and the empty store. -/
theorem C3_round_trip_witness :
    ∃ r db1,
      createAuditLog {}
          (AuditParams.mk (some 1) (some 2) (some "User") (some (Value.vStr "n"))
            (some Action.create) none (some Method.post) none)
        = (Except.ok (some r), db1)
      ∧ r.userId = 1 ∧ r.documentId = 2 ∧ r.collectionName = "User"
      ∧ r.changes = Value.vStr "n" ∧ r.action = Action.create
      ∧ ∃ l, getDocumentAuditLog db1 2 = Except.ok l ∧ r ∈ l :=
  C3_round_trip {} 1 2 "User" (Value.vStr "n") Action.create Method.post
    none none (by decide) (by decide) rfl

/-- C4: the change diff of `UserServiceWithAudit.updateUser` contains exactly
the keys present in `updateData` whose value differs from `oldUser`'s
corresponding value under shallow comparison, each mapped to
`{from := old value, to := new value}`; a key absent from `oldUser` gets the
absent marker (`undefined`, modelled `none`) as `from`. -/
theorem C4_diff_correct (oldUser updateData : List (String × Value))
    (k : String) (c : Change) :
    (k, c) ∈ calcChanges oldUser updateData ↔
      (∃ v, jsGet updateData k = some v)
      ∧ jsGet oldUser k ≠ jsGet updateData k
      ∧ c = { fromV := jsGet oldUser k, toV := jsGet updateData k } := by
  have hmem : k ∈ updateData.map Prod.fst ↔ ∃ v, jsGet updateData k = some v := by
    rw [List.mem_map]
    constructor
    · rintro ⟨p, hp, rfl⟩
      have hsome : (updateData.find? (fun q => q.1 == p.1)).isSome := by
        rw [List.find?_isSome]
        exact ⟨p, hp, by simp⟩
      rcases Option.isSome_iff_exists.mp hsome with ⟨q, hq⟩
      exact ⟨q.2, by simp [jsGet, hq]⟩
    · rintro ⟨v, hv⟩
      simp only [jsGet, Option.map] at hv
      rcases hfind : updateData.find? (fun q => q.1 == k) with _ | q
      · rw [hfind] at hv
        simp at hv
      · have hq' := List.find?_some hfind
        have hmem' := List.mem_of_find?_eq_some hfind
        exact ⟨q, hmem', beq_iff_eq.mp hq'⟩
  constructor
  · intro h
    rcases List.mem_filterMap.mp h with ⟨key, hkey, hf⟩
    by_cases hne : jsGet oldUser key ≠ jsGet updateData key
    · rw [if_pos hne] at hf
      injection hf with hkc
      rw [Prod.mk.injEq] at hkc
      obtain ⟨rfl, rfl⟩ := hkc
      exact ⟨hmem.mp hkey, hne, rfl⟩
    · rw [if_neg hne] at hf
      exact absurd hf (by simp)
  · rintro ⟨hv, hne, rfl⟩
    refine List.mem_filterMap.mpr ⟨k, hmem.mpr hv, ?_⟩
    rw [if_pos hne]

/-- C5: for every subject and a non-failing store, both trail queries return
(as a normal, non-error result) the subject's records sorted ascending by
`timestamp`; when no records exist for the subject the result is the empty
sequence, not an error. -/
theorem C5_trail_sorted (db : Db) (documentId : Nat)
    (hfail : db.failing = false) :
    (∃ l, getAuditTrail db documentId = Except.ok l
       ∧ l.Pairwise (fun a b => a.timestamp ≤ b.timestamp)
       ∧ l.Perm (findByDocumentId db documentId)
       ∧ (∀ r, r ∈ l ↔ r ∈ db.logs ∧ r.documentId = documentId)
       ∧ ((∀ r ∈ db.logs, r.documentId ≠ documentId) → l = []))
    ∧ (∃ l, getDocumentAuditLog db documentId = Except.ok l
       ∧ l.Pairwise (fun a b => a.timestamp ≤ b.timestamp)
       ∧ (∀ r, r ∈ l ↔ r ∈ db.logs ∧ r.documentId = documentId)) := by
  have hmem : ∀ r, r ∈ sortByTimestamp (findByDocumentId db documentId) ↔
      r ∈ db.logs ∧ r.documentId = documentId := by
    intro r
    rw [mem_sortByTimestamp]
    simp [findByDocumentId]
  have hempty : (∀ r ∈ db.logs, r.documentId ≠ documentId) →
      sortByTimestamp (findByDocumentId db documentId) = [] := by
    intro hno
    have hnil : findByDocumentId db documentId = [] := by
      refine List.filter_eq_nil_iff.mpr ?_
      intro r hr
      simp [hno r hr]
    rw [hnil]
    rfl
  refine ⟨⟨_, ?_, sorted_sortByTimestamp _, perm_sortByTimestamp _, hmem, hempty⟩,
    ⟨_, ?_, sorted_sortByTimestamp _, hmem⟩⟩
  · simp only [getAuditTrail]
    rw [if_neg (by simp [hfail])]
  · simp only [getDocumentAuditLog]
    rw [if_neg (by simp [hfail])]

/-- Witness for C5 at a concrete store holding two records of subject 2 (in
reverse chronological insertion order) and one record of subject 9. -/
theorem C5_trail_sorted_witness :
    (∃ l, getAuditTrail dbSample 2 = Except.ok l
       ∧ l.Pairwise (fun a b => a.timestamp ≤ b.timestamp)
       ∧ l.Perm (findByDocumentId dbSample 2)
       ∧ (∀ r, r ∈ l ↔ r ∈ dbSample.logs ∧ r.documentId = 2)
       ∧ ((∀ r ∈ dbSample.logs, r.documentId ≠ 2) → l = []))
    ∧ (∃ l, getDocumentAuditLog dbSample 2 = Except.ok l
       ∧ l.Pairwise (fun a b => a.timestamp ≤ b.timestamp)
       ∧ (∀ r, r ∈ l ↔ r ∈ dbSample.logs ∧ r.documentId = 2)) :=
  C5_trail_sorted dbSample 2 rfl

theorem createAuditLog_logs (db : Db) (p : AuditParams) :
    ((createAuditLog db p).2).logs = db.logs
      ∨ ∃ r, ((createAuditLog db p).2).logs = db.logs ++ [r] := by
  unfold createAuditLog
  split
  · exact Or.inl rfl
  · have h := modelCreate_logs true db p
    rcases hmc : modelCreate true db p with ⟨res, db1⟩
    rw [hmc] at h
    cases res <;> simpa using h

theorem logAuditEntry_logs (db : Db) (t : Action) (c : String) (d : Nat)
    (ch : Value) (u : Nat) (m : Option Method) (pa : Option Nat) :
    ((logAuditEntry db t c d ch u m pa).2).logs = db.logs
      ∨ ∃ r, ((logAuditEntry db t c d ch u m pa).2).logs = db.logs ++ [r] := by
  unfold logAuditEntry
  have h := modelCreate_logs false db
    (AuditParams.mk (some u) (some d) (some c) (some ch) (some t) none m pa)
  rcases hmc : modelCreate false db
    (AuditParams.mk (some u) (some d) (some c) (some ch) (some t) none m pa)
    with ⟨res, db1⟩
  rw [hmc] at h
  cases res <;> simpa using h

theorem sortFind_nil (db : Db) (documentId : Nat)
    (hno : ∀ r ∈ db.logs, r.documentId ≠ documentId) :
    sortByTimestamp (findByDocumentId db documentId) = [] := by
  have hnil : findByDocumentId db documentId = [] := by
    refine List.filter_eq_nil_iff.mpr ?_
    intro r hr
    simp [hno r hr]
  rw [hnil]
  rfl

/-- C6: for every parent id and a non-failing store, both children queries
return exactly the persisted records whose `parent` equals that id (direct
children only); a record whose parent is some non-`P` record — in particular a
grandchild, two hops away — is never included. -/
theorem C6_children_direct (db : Db) (P : Nat) (hfail : db.failing = false) :
    (∃ l, getChildAuditLogs db P = Except.ok l
       ∧ (∀ r, r ∈ l ↔ r ∈ db.logs ∧ r.parent = some P)
       ∧ ∀ r g, r ∈ l → g.parent = some r._id → r._id ≠ P → g ∉ l)
    ∧ (∃ l, getParentChildAuditLogs db P = Except.ok l
       ∧ ∀ r, r ∈ l ↔ r ∈ db.logs ∧ r.parent = some P) := by
  have hmem : ∀ r, r ∈ sortByTimestamp (findByParent db P) ↔
      r ∈ db.logs ∧ r.parent = some P := by
    intro r
    rw [mem_sortByTimestamp]
    simp [findByParent]
  have hmem2 : ∀ r, r ∈ findByParent db P ↔ r ∈ db.logs ∧ r.parent = some P := by
    intro r
    simp [findByParent]
  refine ⟨⟨sortByTimestamp (findByParent db P), ?_, hmem, ?_⟩,
    ⟨findByParent db P, ?_, hmem2⟩⟩
  · unfold getChildAuditLogs
    rw [if_neg (by simp [hfail])]
  · intro r g hr hg hne hgl
    have h2 := (hmem g).mp hgl
    rw [h2.2] at hg
    exact hne (Option.some.inj hg).symm
  · unfold getParentChildAuditLogs
    rw [if_neg (by simp [hfail])]

/-- Witness for C6 on the sample store: record 2 is the only child of
record 1, and nothing else is returned. -/
theorem C6_children_direct_witness :
    (∃ l, getChildAuditLogs dbSample 1 = Except.ok l
       ∧ (∀ r, r ∈ l ↔ r ∈ dbSample.logs ∧ r.parent = some 1)
       ∧ ∀ r g, r ∈ l → g.parent = some r._id → r._id ≠ 1 → g ∉ l)
    ∧ (∃ l, getParentChildAuditLogs dbSample 1 = Except.ok l
       ∧ ∀ r, r ∈ l ↔ r ∈ dbSample.logs ∧ r.parent = some 1) :=
  C6_children_direct dbSample 1 rfl

/-- C7: `createLinkedAuditLog` with `parent` unset throws to its caller
(modelled as `Except.error`) before any store interaction, regardless of every
other field; the store — including its `create` call count — is untouched.
(The src/services `logLinkedAuditEntry` takes the parent id as a required,
non-optional argument, so a parentless call is not expressible there.) -/
theorem C7_linked_requires_parent (db : Db) (p : AuditParams)
    (hp : p.parent = none) :
    createLinkedAuditLog db p
      = (Except.error "there is no parent to this audit log", db) := by
  unfold createLinkedAuditLog
  rw [if_pos (by simp [hp])]

/-- Witness for C7: a fully valid input lacking only `parent` fails on the
empty store, which is returned unchanged. -/
theorem C7_linked_requires_parent_witness :
    createLinkedAuditLog {} pValid
      = (Except.error "there is no parent to this audit log", {}) :=
  C7_linked_requires_parent {} pValid rfl

/-- C8: the log is append-only.  Every operation of the two service variants
either leaves the persisted list untouched or appends exactly one new record
at the end, so every previously persisted record is unchanged afterwards; no
operation updates or deletes an existing audit record. -/
theorem C8_append_only (db : Db) (op : ServiceOp) :
    (runOp db op).logs = db.logs ∨ ∃ r, (runOp db op).logs = db.logs ++ [r] := by
  cases op with
  | createAuditLogOp p => exact createAuditLog_logs db p
  | createLinkedAuditLogOp p =>
    simp only [runOp, createLinkedAuditLog]
    split
    · exact Or.inl rfl
    · exact createAuditLog_logs db p
  | getDocumentAuditLogOp d => exact Or.inl rfl
  | getParentChildAuditLogsOp pa => exact Or.inl rfl
  | logAuditEntryOp t c d ch u m pa => exact logAuditEntry_logs db t c d ch u m pa
  | getAuditTrailOp d => exact Or.inl rfl
  | getChildAuditLogsOp pa => exact Or.inl rfl
  | logLinkedAuditEntryOp t c d ch u pa m =>
    simpa only [runOp, logLinkedAuditEntry] using
      logAuditEntry_logs db t c d ch u m (some pa)

/-- C9: the interview-simulation `createAuditLog` treats the optional,
informational `method` field as a sixth mandatory field: with all five
spec-mandatory fields present and truthy but `method` absent, it persists
nothing, invokes no store call, and returns `undefined` (`Except.ok none`). -/
theorem C9_method_treated_mandatory (db : Db) (p : AuditParams)
    (hu : p.userId.isSome = true) (hd : p.documentId.isSome = true)
    (hc : truthyS p.collectionName = true) (hch : truthyV p.changes = true)
    (ha : p.action.isSome = true) (hm : p.method = none) :
    createAuditLog db p = (Except.ok none, db) := by
  unfold createAuditLog
  rw [if_pos (by simp [hm])]

/-- Witness for C9: a call with the five spec-mandatory fields valid but no
`method` returns `undefined` and leaves the empty store untouched. -/
theorem C9_method_treated_mandatory_witness :
    createAuditLog {} pNoMethod = (Except.ok none, {}) :=
  C9_method_treated_mandatory {} pNoMethod rfl rfl (by decide) (by decide) rfl rfl

/-- C10: `getAuditTrail` and `getChildAuditLogs` never throw: for every
input they return a normal (`Except.ok`) result; when the store fails they
return the empty list, exactly what a non-failing query returns for a subject
with no records — so the caller cannot tell a storage failure from a
legitimately empty trail. -/
theorem C10_reads_never_throw (db : Db) (documentId parentId : Nat) :
    (∃ l, getAuditTrail db documentId = Except.ok l)
    ∧ (∃ l, getChildAuditLogs db parentId = Except.ok l)
    ∧ (db.failing = true →
        getAuditTrail db documentId = Except.ok []
        ∧ getChildAuditLogs db parentId = Except.ok [])
    ∧ (db.failing = false → (∀ r ∈ db.logs, r.documentId ≠ documentId) →
        getAuditTrail db documentId = Except.ok []) := by
  cases hdb : db.failing with
  | true =>
    have ht : getAuditTrail db documentId = Except.ok [] := by
      unfold getAuditTrail
      rw [if_pos hdb]
    have hcl : getChildAuditLogs db parentId = Except.ok [] := by
      unfold getChildAuditLogs
      rw [if_pos hdb]
    exact ⟨⟨[], ht⟩, ⟨[], hcl⟩, fun _ => ⟨ht, hcl⟩, fun hf => Bool.noConfusion hf⟩
  | false =>
    have ht : getAuditTrail db documentId
        = Except.ok (sortByTimestamp (findByDocumentId db documentId)) := by
      unfold getAuditTrail
      rw [if_neg (by simp [hdb])]
    have hcl : getChildAuditLogs db parentId
        = Except.ok (sortByTimestamp (findByParent db parentId)) := by
      unfold getChildAuditLogs
      rw [if_neg (by simp [hdb])]
    refine ⟨⟨_, ht⟩, ⟨_, hcl⟩, fun hf => Bool.noConfusion hf, fun _ hno => ?_⟩
    rw [ht, sortFind_nil db documentId hno]

/-- Witness for C10 on a failing store: both reads return the empty list as a
normal result. -/
theorem C10_reads_never_throw_witness :
    (∃ l, getAuditTrail dbFailing 5 = Except.ok l)
    ∧ (∃ l, getChildAuditLogs dbFailing 7 = Except.ok l)
    ∧ (dbFailing.failing = true →
        getAuditTrail dbFailing 5 = Except.ok []
        ∧ getChildAuditLogs dbFailing 7 = Except.ok [])
    ∧ (dbFailing.failing = false → (∀ r ∈ dbFailing.logs, r.documentId ≠ 5) →
        getAuditTrail dbFailing 5 = Except.ok []) :=
  C10_reads_never_throw dbFailing 5 7

end Ume1
